import Mathlib

set_option maxHeartbeats 1000000

/-!
Shallow embedding of the tor_project repository:
`src/crypto/core_crypto.py` and `src/router/onion_router.py`.

Python byte strings are modelled as lists of natural numbers below 256;
Python `str` values that carry binary data travel through the code in the
same way, with `encode`/`decode` treated as the identity on byte
sequences.  Fallible Python code is modelled with `Except`.
-/

/-- A Python byte string (`bytes`, `bytearray`, or a `str` carrying
binary data). -/
abbrev Bytes := List Nat

/-- The Python exceptions that the modelled code can raise.
`decryptionError` stands for the failure raised by the asymmetric
decryption primitive (the spec error kind `DecryptionError`);
`nameError n` is Python `NameError` for an unbound name `n`;
`typeError` is Python `TypeError` (for example a `None` passed where the
library requires a value). -/
inductive PyErr where
  | decryptionError
  | nameError (n : String)
  | typeError
  deriving DecidableEq

namespace CryptoConstants

/-- `CryptoConstants.KEY_LEN` from core_crypto.py: the length of the
stream cipher key, in bytes. -/
def KEY_LEN : Nat := 16

/-- `CryptoConstants.DH_LEN` from core_crypto.py. -/
def DH_LEN : Nat := 128

/-- `CryptoConstants.DH_SEC_LEN` from core_crypto.py. -/
def DH_SEC_LEN : Nat := 40

/-- `CryptoConstants.PK_ENC_LEN` from core_crypto.py: the length of a
public-key encrypted message, in bytes. -/
def PK_ENC_LEN : Nat := 128

/-- `CryptoConstants.PK_PAD_LEN` from core_crypto.py: bytes of capacity
consumed by public-key padding. -/
def PK_PAD_LEN : Nat := 42

/-- `CryptoConstants.HASH_LEN` from core_crypto.py: the length of the
hash output, in bytes. -/
def HASH_LEN : Nat := 20

end CryptoConstants

/-- The spec notion `usable_capacity = PK_ENC_LEN - PK_PAD_LEN`: the
largest payload a single public-key operation can carry. -/
def usable_capacity : Nat := CryptoConstants.PK_ENC_LEN - CryptoConstants.PK_PAD_LEN

/-- Modelled from the spec: an RSA public key object from the external
`cryptography` library, reduced to the identity of the keypair it
belongs to. -/
structure RSAPublicKey where
  keyId : Nat
  deriving DecidableEq

/-- Modelled from the spec: an RSA private key object from the external
`cryptography` library; it matches the public key with the same
`keyId`. -/
structure RSAPrivateKey where
  keyId : Nat
  deriving DecidableEq

/-- Python `str(pk)`: an opaque textual rendering of the public key
object, modelled as bytes determined by the key. -/
def strOfPk (pk : RSAPublicKey) : Bytes := [pk.keyId]

/-- Modelled from the spec: `pk.encrypt(m, OAEP(MGF1(SHA256), SHA256))`
of the external `cryptography` library, idealized as an injective
encoding that records the encrypting key and an integrity check over the
plaintext.  The spec only requires that decryption succeeds with the
matching key and fails (`DecryptionError`) on a wrong key or a corrupted
ciphertext. -/
def oaepEncrypt (pk : RSAPublicKey) (m : Bytes) : Bytes :=
  pk.keyId :: (m.sum % 256) :: m

/-- Modelled from the spec: `sk.decrypt(c, OAEP(...))` of the external
`cryptography` library.  Succeeds exactly on well-formed ciphertexts
produced for the matching public key; raises the decryption failure
otherwise. -/
def oaepDecrypt (sk : RSAPrivateKey) (c : Bytes) : Except PyErr Bytes :=
  match c with
  | kid :: chk :: m =>
    if kid = sk.keyId ∧ chk = m.sum % 256 then Except.ok m
    else Except.error PyErr.decryptionError
  | _ => Except.error PyErr.decryptionError

/-- Modelled from the spec: `os.urandom(n)` — `n` fresh random bytes from
the operating system.  The OS entropy source is the explicit parameter
`entropy`; each produced byte is below 256. -/
def urandom (entropy : Nat → Nat) (n : Nat) : Bytes :=
  (List.range n).map (fun i => entropy i % 256)

/-- Modelled from the spec: the keystream of the external AES-CTR stream
cipher, as a fixed deterministic function of the key, the nonce and the
byte position.  The claims rely only on encryption and decryption being
the same XOR of the plaintext with this keystream. -/
def ctrKeystream (key nonce : Bytes) (i : Nat) : Nat :=
  (key.sum * 131 + nonce.sum * 31 + i * 7 + 11) % 256

/-- XOR a byte list with the keystream `ks`, starting at position `i`:
both `encryptor.update` and `decryptor.update` of a CTR-mode cipher. -/
def ctrXor (ks : Nat → Nat) : Nat → Bytes → Bytes
  | _, [] => []
  | i, b :: rest => (b ^^^ ks i) :: ctrXor ks (i + 1) rest

/-- Modelled from the spec: `TapCHData` from `cell/control_cell.py`
(declared in the repository but not under src/) — the Handshake Record.
Constructor argument order follows the dictionary keys used by
`hybrid_decrypt`: `PADDING`, `SYMKEY`, `GX1`, `GX2`.  Fields that Python
sets to `None` are `none`. -/
structure TapCHData where
  padding : Option Bytes
  symkey : Option Bytes
  gx1 : Bytes
  gx2 : Option Bytes
  deriving DecidableEq

/-- Modelled from the spec: `TapCHData.net_serialize` — a lossless
transport encoding of the record.  The spec requires only round-trip
identity, so the wire form is identified with the record itself. -/
def TapCHData.net_serialize (d : TapCHData) : TapCHData := d

/-- Modelled from the spec: `TapCHData.net_deserialize`, inverse of
`net_serialize`.  The subsequent `.serialize()` into a dictionary is
field access on the result. -/
def TapCHData.net_deserialize (d : TapCHData) : TapCHData := d

namespace CoreCryptoRSA

/-- `CoreCryptoRSA.hybrid_encrypt` from core_crypto.py.  The call
`os.urandom(CryptoConstants.KEY_LEN)` is modelled by drawing from the
explicit OS entropy source `entropy`.  On the small path the code builds
`TapCHData(str(pk), None, p, None)`, i.e. the stringified public key is
stored in the `padding` slot. -/
def hybrid_encrypt (message : Bytes) (pk : RSAPublicKey) (entropy : Nat → Nat) : TapCHData :=
  if message.length ≤ CryptoConstants.PK_ENC_LEN - CryptoConstants.PK_PAD_LEN then
    TapCHData.net_serialize ⟨some (strOfPk pk), none, oaepEncrypt pk message, none⟩
  else
    let k := urandom entropy CryptoConstants.KEY_LEN
    let m1 := message.take (CryptoConstants.PK_ENC_LEN - CryptoConstants.PK_PAD_LEN - CryptoConstants.KEY_LEN)
    let m2 := message.drop (CryptoConstants.PK_ENC_LEN - CryptoConstants.PK_PAD_LEN - CryptoConstants.KEY_LEN)
    let p1 := oaepEncrypt pk (k ++ m1)
    let nonce := List.replicate m2.length 0
    let p2 := ctrXor (ctrKeystream k nonce) 0 m2
    TapCHData.net_serialize ⟨some nonce, some k, p1, some p2⟩

/-- `CoreCryptoRSA.hybrid_decrypt` from core_crypto.py.  The Python code
constructs the symmetric cipher from `x["SYMKEY"]` and `x["PADDING"]`
after the asymmetric decryption; a record with `SYMKEY` present but
`PADDING` or `GX2` equal to `None` makes the external library raise
`TypeError`, modelled by the final branch. -/
def hybrid_decrypt (message : TapCHData) (sk : RSAPrivateKey) : Except PyErr Bytes :=
  let x := TapCHData.net_deserialize message
  match x.symkey with
  | none => oaepDecrypt sk x.gx1
  | some symkey =>
    match oaepDecrypt sk x.gx1 with
    | Except.error e => Except.error e
    | Except.ok km1 =>
      let m1 := km1.drop symkey.length
      match x.padding, x.gx2 with
      | some nonce, some gx2bytes =>
        let m2 := ctrXor (ctrKeystream symkey nonce) 0 gx2bytes
        Except.ok (m1 ++ m2)
      | _, _ => Except.error PyErr.typeError

end CoreCryptoRSA

/-- Corrupting one position of a record's `part_a` (`GX1`): byte `i` is
replaced by `b`. -/
def corruptPartA (r : TapCHData) (i : Nat) (b : Nat) : TapCHData :=
  ⟨r.padding, r.symkey, r.gx1.set i b, r.gx2⟩

/-- A value bound at module level of core_crypto.py: an imported module,
an imported or locally defined class, or an imported function.  No
integer is bound at module level. -/
inductive PyValue where
  | moduleV (name : String)
  | classV (name : String)
  | funcV (name : String)
  | intV (n : Nat)
  deriving DecidableEq

/-- The global (module-level) bindings of core_crypto.py, in source
order: the imports and the four class definitions.  `KEY_LEN` and
`HASH_LEN` are not among them — they are bound only as attributes of the
class `CryptoConstants` (accessed as `CryptoConstants.KEY_LEN`). -/
def coreCryptoGlobals : List (String × PyValue) :=
  [("os", PyValue.moduleV ("os")),
   ("default_backend", PyValue.funcV ("default_backend")),
   ("backend", PyValue.moduleV ("backend")),
   ("serialization", PyValue.moduleV ("serialization")),
   ("rsa", PyValue.moduleV ("rsa")),
   ("hashes", PyValue.moduleV ("hashes")),
   ("HKDF", PyValue.classV ("HKDF")),
   ("Any", PyValue.classV ("Any")),
   ("json", PyValue.moduleV ("json")),
   ("Cipher", PyValue.classV ("Cipher")),
   ("algorithms", PyValue.moduleV ("algorithms")),
   ("modes", PyValue.moduleV ("modes")),
   ("TapCHData", PyValue.classV ("TapCHData")),
   ("padding", PyValue.moduleV ("padding")),
   ("CryptoConstants", PyValue.classV ("CryptoConstants")),
   ("CoreCryptoRSA", PyValue.classV ("CoreCryptoRSA")),
   ("CoreCryptoDH", PyValue.classV ("CoreCryptoDH")),
   ("CoreCryptoMisc", PyValue.classV ("CoreCryptoMisc"))]

/-- Python name resolution for an integer-valued name used inside the
body of `kdf_tor`.  The locals of `kdf_tor` are `message`, `backend`,
`hkdf`, `key` and `kdf_tor_dict`, none of which shadows the looked-up
constants, so resolution falls through to the module globals; an absent
name raises `NameError`, a name bound to a non-integer raises
`TypeError` at the arithmetic that consumes it. -/
def evalIntName (n : String) : Except PyErr Nat :=
  match coreCryptoGlobals.lookup n with
  | some (PyValue.intV v) => Except.ok v
  | some _ => Except.error PyErr.typeError
  | none => Except.error (PyErr.nameError n)

/-- Modelled from the spec: `HKDF(SHA256, length, salt=None, info=None)
.derive(secret)` of the external `cryptography` library — a
deterministic expansion of the secret into exactly `len` bytes. -/
def hkdfDerive (len : Nat) (secret : Bytes) : Bytes :=
  (List.range len).map (fun i => (secret.sum * 31 + i * 7 + 1) % 256)

/-- The dictionary returned by `kdf_tor`: the Key Material Bundle with
keys `KH`, `Df`, `Db`, `Kf`, `Kb`. -/
structure KdfTorDict where
  KH : Bytes
  Df : Bytes
  Db : Bytes
  Kf : Bytes
  Kb : Bytes
  deriving DecidableEq

namespace CoreCryptoRSA

/-- `CoreCryptoRSA.kdf_tor` from core_crypto.py.  The body references
`KEY_LEN` and `HASH_LEN` as bare names (first in the expression
`KEY_LEN*2+HASH_LEN*3` passed to the `HKDF` constructor, then in the
five slice expressions); each bare reference is resolved through
`evalIntName` against the module globals, exactly as Python would. -/
def kdf_tor (message : Bytes) : Except PyErr KdfTorDict :=
  match evalIntName ("KEY_LEN") with
  | Except.error e => Except.error e
  | Except.ok kl =>
    match evalIntName ("HASH_LEN") with
    | Except.error e => Except.error e
    | Except.ok hl =>
      let key := hkdfDerive (kl * 2 + hl * 3) message
      Except.ok ⟨key.take hl,
        (key.drop hl).take hl,
        (key.drop (2 * hl)).take hl,
        (key.drop (3 * hl)).take kl,
        (key.drop (3 * hl + kl)).take kl⟩

/-- `CoreCryptoRSA.load_private_key_from_disc` from core_crypto.py.  The
file open and the PEM parse are the external filesystem and library;
their combined outcome is the parameter `readResult`.  The Python
`except` clause catches every exception, prints a message and returns
`None` as an ordinary value. -/
def load_private_key_from_disc (readResult : Except PyErr RSAPrivateKey) :
    Option RSAPrivateKey :=
  match readResult with
  | Except.ok key => some key
  | Except.error _ => none

end CoreCryptoRSA

/-- The node handed to `OnionRouter.__init__` (its `host` and `port`
attributes are all the router reads). -/
structure Node where
  host : Nat
  port : Nat
  deriving DecidableEq

/-- The `Skt` transport wrapper from `connection/skt.py` (declared in
the repository but not under src/). Modelled from the spec: it owns the
listening endpoint and, after an accept, the accepted connection
`conn`. -/
structure Skt where
  host : Nat
  port : Nat
  conn : Option Nat
  deriving DecidableEq

/-- The `Circuit` from `router/circuit.py` (declared in the repository
but not under src/).  Modelled from the spec: a circuit is built from
its id, the local node and the accepted connection; its `main` method is
the worker entry point whose execution is recorded as an event. -/
structure Circuit where
  circuit_id : Int
  node : Node
  conn : Option Nat
  deriving DecidableEq

/-- A `threading.Thread` object: its `target` is the callable it will
run on `start` — `none` models Python `None` (no body to run). -/
structure PyThread where
  target : Option Unit
  deriving DecidableEq

/-- Events observable while `OnionRouter.accept` executes:
`serverAccept` is the blocking `skt.server_accept()` call returning;
`exitProcess` is the `exit(0)` on an accept failure; `runMain cktid` is
the body of `Circuit.main` executing for circuit `cktid`;
`threadStart t` is `circuit_th.start()` launching a thread whose target
is `t`. -/
inductive Ev where
  | serverAccept
  | exitProcess
  | runMain (cktid : Int)
  | threadStart (target : Option Unit)
  deriving DecidableEq

/-- `OnionRouter` state from onion_router.py (`routing_table` is never
touched by the modelled methods and is omitted as an empty index). -/
structure OnionRouter where
  node : Node
  skt : Skt
  is_exit_node : Bool
  circuits_list : List Circuit
  circuits_threads : List PyThread
  deriving DecidableEq

/-- `OnionRouter.get_rand_circ_id` from onion_router.py: the circuit-id
allocator. -/
def OnionRouter.get_rand_circ_id (_r : OnionRouter) : Int := 1

/-- `OnionRouter.accept` from onion_router.py.  `acceptResult` is the
return value of `skt.server_accept()` and `conn` the accepted
connection.  The Python line
`circuit_th = threading.Thread(target=ckt.main(), args=())` evaluates
`ckt.main()` while building the argument list — the event
`Ev.runMain cktid` is emitted here, inside `accept` — and hands the
returned `None` to the `Thread`, so the later `circuit_th.start()`
launches a thread with no body (`Ev.threadStart none`). -/
def OnionRouter.accept (r : OnionRouter) (acceptResult : Int) (conn : Nat) :
    Option OnionRouter × List Ev :=
  if acceptResult ≠ 0 then
    (none, [Ev.serverAccept, Ev.exitProcess])
  else
    let cktid := r.get_rand_circ_id
    let skt2 : Skt := ⟨r.skt.host, r.skt.port, some conn⟩
    let ckt : Circuit := ⟨cktid, r.node, skt2.conn⟩
    let r1 : OnionRouter := ⟨r.node, skt2, r.is_exit_node, r.circuits_list ++ [ckt], r.circuits_threads⟩
    let th : PyThread := ⟨none⟩
    let r2 : OnionRouter := ⟨r1.node, r1.skt, r1.is_exit_node, r1.circuits_list, r1.circuits_threads ++ [th]⟩
    (some r2, [Ev.serverAccept, Ev.runMain cktid, Ev.threadStart th.target])

/-! ## Helper lemmas -/

/-- Idealized OAEP round-trip: decryption with the matching private key
recovers the plaintext. -/
theorem oaep_round_trip (sk : RSAPrivateKey) (pk : RSAPublicKey) (m : Bytes)
    (hmatch : sk.keyId = pk.keyId) :
    oaepDecrypt sk (oaepEncrypt pk m) = Except.ok m := by
  simp [oaepEncrypt, oaepDecrypt, hmatch]

/-- Idealized OAEP: decryption with a non-matching private key fails. -/
theorem oaepDecrypt_wrong_key (sk : RSAPrivateKey) (pk : RSAPublicKey) (m : Bytes)
    (h : sk.keyId ≠ pk.keyId) :
    oaepDecrypt sk (oaepEncrypt pk m) = Except.error PyErr.decryptionError := by
  simp only [oaepEncrypt, oaepDecrypt]
  rw [if_neg]
  rintro ⟨h1, _⟩
  exact h h1.symm

/-- Applying the CTR keystream twice is the identity. -/
theorem ctrXor_involution (ks : Nat → Nat) (i : Nat) (m : Bytes) :
    ctrXor ks i (ctrXor ks i m) = m := by
  induction m generalizing i with
  | nil => rfl
  | cons b t ih =>
    simp [ctrXor, Nat.xor_assoc, ih]

/-- `os.urandom n` returns exactly `n` bytes. -/
theorem urandom_length (entropy : Nat → Nat) (n : Nat) :
    (urandom entropy n).length = n := by
  simp [urandom]

/-- Every byte of `os.urandom n` is below 256. -/
theorem urandom_lt (entropy : Nat → Nat) (n : Nat) :
    ∀ b ∈ urandom entropy n, b < 256 := by
  intro b hb
  simp only [urandom, List.mem_map, List.mem_range] at hb
  obtain ⟨i, _hi, hbe⟩ := hb
  omega

/-- An in-bounds `getD` is a member of the list. -/
theorem getD_mem_of_lt (m : List Nat) : ∀ (j : Nat), j < m.length → m.getD j 0 ∈ m := by
  induction m with
  | nil => intro j h; simp at h
  | cons a t ih =>
    intro j h
    cases j with
    | zero => simp
    | succ j2 =>
      simp only [List.getD_cons_succ, List.mem_cons]
      exact Or.inr (ih j2 (by simpa using h))

/-- Replacing an in-bounds element changes the sum by the difference of
the two bytes: `(m.set j b).sum + m[j] = m.sum + b`. -/
theorem sum_set_add (m : List Nat) : ∀ (j : Nat) (b : Nat), j < m.length →
    (m.set j b).sum + m.getD j 0 = m.sum + b := by
  induction m with
  | nil => intro j b h; simp at h
  | cons a t ih =>
    intro j b h
    cases j with
    | zero => simp [List.set]; omega
    | succ j2 =>
      have h2 := ih j2 b (by simpa using h)
      simp only [List.set, List.sum_cons, List.getD_cons_succ]
      omega

/-- Corrupting any single byte of an idealized OAEP ciphertext makes
decryption with the matching key fail. -/
theorem oaepDecrypt_set_error (sk : RSAPrivateKey) (pk : RSAPublicKey) (m : Bytes)
    (hmatch : sk.keyId = pk.keyId) (hm : ∀ x ∈ m, x < 256) :
    ∀ i b, i < (oaepEncrypt pk m).length → b ≠ (oaepEncrypt pk m).getD i 0 → b < 256 →
    oaepDecrypt sk ((oaepEncrypt pk m).set i b) = Except.error PyErr.decryptionError := by
  intro i b hi hb hblt
  match i with
  | 0 =>
    have hbk : b ≠ pk.keyId := by simpa [oaepEncrypt] using hb
    simp only [oaepEncrypt, List.set, oaepDecrypt]
    rw [if_neg]
    rintro ⟨h1, _⟩
    exact hbk (h1.trans hmatch)
  | 1 =>
    have hbc : b ≠ m.sum % 256 := by simpa [oaepEncrypt] using hb
    simp only [oaepEncrypt, List.set, oaepDecrypt]
    rw [if_neg]
    rintro ⟨_, h2⟩
    exact hbc h2
  | (j + 2) =>
    have hj : j < m.length := by
      simpa [oaepEncrypt] using hi
    have hbj : b ≠ m.getD j 0 := by simpa [oaepEncrypt] using hb
    have hmj : m.getD j 0 < 256 := hm _ (getD_mem_of_lt m j hj)
    have hsum := sum_set_add m j b hj
    simp only [oaepEncrypt, List.set, oaepDecrypt]
    rw [if_neg]
    rintro ⟨_, h2⟩
    omega

/-- If the asymmetric decryption of `GX1` fails, `hybrid_decrypt`
propagates the failure on both paths. -/
theorem hybrid_decrypt_error_of_gx1 (r : TapCHData) (sk : RSAPrivateKey) (e : PyErr)
    (h : oaepDecrypt sk r.gx1 = Except.error e) :
    CoreCryptoRSA.hybrid_decrypt r sk = Except.error e := by
  unfold CoreCryptoRSA.hybrid_decrypt TapCHData.net_deserialize
  cases hs : r.symkey with
  | none => simp [hs, h]
  | some s => simp [hs, h]

/-! ## Claim theorems -/

/-- C4: the accept path does synchronously execute the circuit worker's
body.  For every router state and accepted connection the trace of
`accept` is: the accept returns, then `Circuit.main` runs to completion
inside `accept` itself (while the `Thread` argument list is evaluated),
and only then a thread is started, with target `None` — no body is ever
scheduled asynchronously.  This refutes the claim that the worker entry
point is handed to an independently scheduled unit. -/
theorem accept_runs_worker_synchronously (r : OnionRouter) (conn : Nat) :
    (r.accept 0 conn).2 = [Ev.serverAccept, Ev.runMain 1, Ev.threadStart none] := by
  rfl

/-- C5: the circuit-id allocator is the constant 1.  Any two allocation
calls — in particular two calls whose circuits are both still live —
return the same identifier, refuting the claim that distinct live
circuits receive pairwise-distinct ids. -/
theorem get_rand_circ_id_constant (r r2 : OnionRouter) :
    r.get_rand_circ_id = r2.get_rand_circ_id ∧ r.get_rand_circ_id = 1 :=
  ⟨rfl, rfl⟩

/-- C6: evaluating `kdf_tor` on the concrete shared secret "gxy" does
not produce a key-material bundle: the reference to the bare name
`KEY_LEN` in the output-length expression raises `NameError` before any
output exists, refuting the claim that `kdf_tor` deterministically
returns the five-slice bundle. -/
theorem kdf_tor_gxy_raises : CoreCryptoRSA.kdf_tor [103, 120, 121]
    = Except.error (PyErr.nameError ("KEY_LEN")) := by
  rfl

/-- C10: for every input, `kdf_tor` fails with the unbound-name error on
`KEY_LEN` before producing any output, because `KEY_LEN` and `HASH_LEN`
are bound only as attributes of `CryptoConstants` and not at module
level; no call ever returns a key-material bundle. -/
theorem kdf_tor_always_nameError (message : Bytes) :
    CoreCryptoRSA.kdf_tor message = Except.error (PyErr.nameError ("KEY_LEN")) := by
  rfl

/-- C9: on any failing read or parse of the PEM file, the key loader
catches the exception and returns `None` as an ordinary value — the
failure is degraded into a normally returned value rather than raised
as a fatal `KeyLoadError`, refuting the claim. -/
theorem load_private_key_returns_none_on_error (e : PyErr) :
    CoreCryptoRSA.load_private_key_from_disc (Except.error e) = none := by
  rfl

/-- C1: hybrid round-trip.  For every payload with
`0 < len(p) <= 10 * usable_capacity`, and a matching RSA keypair,
decrypting the encryption returns the payload, on both the small path
and the hybrid path. -/
theorem hybrid_round_trip (p : Bytes) (pk : RSAPublicKey) (sk : RSAPrivateKey)
    (entropy : Nat → Nat) (hmatch : sk.keyId = pk.keyId) (_hpos : 0 < p.length)
    (_hbound : p.length ≤ 10 * usable_capacity) :
    CoreCryptoRSA.hybrid_decrypt (CoreCryptoRSA.hybrid_encrypt p pk entropy) sk
      = Except.ok p := by
  unfold CoreCryptoRSA.hybrid_encrypt
  by_cases hsmall : p.length ≤ CryptoConstants.PK_ENC_LEN - CryptoConstants.PK_PAD_LEN
  · rw [if_pos hsmall]
    unfold CoreCryptoRSA.hybrid_decrypt TapCHData.net_serialize TapCHData.net_deserialize
    simp [oaep_round_trip sk pk p hmatch]
  · rw [if_neg hsmall]
    unfold CoreCryptoRSA.hybrid_decrypt TapCHData.net_serialize TapCHData.net_deserialize
    simp [oaep_round_trip sk pk _ hmatch, ctrXor_involution, List.drop_left,
      List.take_append_drop]

/-- C2: hybrid-path selection.  For every non-empty payload, the record
produced by `hybrid_encrypt` has `symmetric_key` present if and only if
the payload exceeds the usable capacity. -/
theorem hybrid_path_selection (p : Bytes) (pk : RSAPublicKey) (entropy : Nat → Nat)
    (hpos : 0 < p.length) :
    (CoreCryptoRSA.hybrid_encrypt p pk entropy).symkey.isSome = true
      ↔ usable_capacity < p.length := by
  unfold CoreCryptoRSA.hybrid_encrypt
  have hcap : usable_capacity = 86 := rfl
  by_cases hsmall : p.length ≤ CryptoConstants.PK_ENC_LEN - CryptoConstants.PK_PAD_LEN
  · have h86 : p.length ≤ 86 := hsmall
    rw [if_pos hsmall]
    simp only [TapCHData.net_serialize, Option.isSome_none, hcap]
    simp
    omega
  · have h86 : ¬ p.length ≤ 86 := hsmall
    rw [if_neg hsmall]
    simp only [TapCHData.net_serialize, Option.isSome_some, hcap]
    simp
    omega

/-- C7: on the hybrid path, `hybrid_encrypt` draws a symmetric key `k`
of `KEY_LEN` bytes from the OS entropy source, splits the payload into
the prefix `m1` (so that `k ++ m1` exactly fills the usable capacity)
and the remainder `m2`, public-key-encrypts `k ++ m1` into `part_a`,
CTR-encrypts `m2` under `k` with an all-zero nonce of length `len(m2)`
into `part_b`, and stores the nonce in `padding` and `k` in
`symmetric_key`. -/
theorem hybrid_large_path (p : Bytes) (pk : RSAPublicKey) (entropy : Nat → Nat)
    (hlarge : usable_capacity < p.length) :
    CoreCryptoRSA.hybrid_encrypt p pk entropy =
      ⟨some (List.replicate (p.drop (usable_capacity - CryptoConstants.KEY_LEN)).length 0),
       some (urandom entropy CryptoConstants.KEY_LEN),
       oaepEncrypt pk (urandom entropy CryptoConstants.KEY_LEN
         ++ p.take (usable_capacity - CryptoConstants.KEY_LEN)),
       some (ctrXor (ctrKeystream (urandom entropy CryptoConstants.KEY_LEN)
           (List.replicate (p.drop (usable_capacity - CryptoConstants.KEY_LEN)).length 0)) 0
         (p.drop (usable_capacity - CryptoConstants.KEY_LEN)))⟩ ∧
    (urandom entropy CryptoConstants.KEY_LEN).length = CryptoConstants.KEY_LEN ∧
    (urandom entropy CryptoConstants.KEY_LEN
      ++ p.take (usable_capacity - CryptoConstants.KEY_LEN)).length = usable_capacity ∧
    (List.replicate (p.drop (usable_capacity - CryptoConstants.KEY_LEN)).length 0).length
      = (p.drop (usable_capacity - CryptoConstants.KEY_LEN)).length := by
  have h86 : 86 < p.length := hlarge
  have hneg : ¬ p.length ≤ CryptoConstants.PK_ENC_LEN - CryptoConstants.PK_PAD_LEN := by
    show ¬ p.length ≤ 86
    omega
  refine ⟨?_, urandom_length entropy _, ?_, by simp⟩
  · unfold CoreCryptoRSA.hybrid_encrypt
    rw [if_neg hneg]
    rfl
  · have hlen : (p.take (usable_capacity - CryptoConstants.KEY_LEN)).length = 70 := by
      rw [List.length_take]
      show min 70 p.length = 70
      omega
    rw [List.length_append, urandom_length, hlen]
    rfl

/-- C8: decrypting a record produced by `hybrid_encrypt` with a
non-matching private key, or with a single corrupted byte in `part_a`
(decrypted with the matching key), fails with the decryption error and
never returns a payload. -/
theorem decryption_failure (p : Bytes) (pk : RSAPublicKey) (skWrong skMatch : RSAPrivateKey)
    (entropy : Nat → Nat) (hp : ∀ x ∈ p, x < 256)
    (hwrong : skWrong.keyId ≠ pk.keyId) (hmatch : skMatch.keyId = pk.keyId) :
    CoreCryptoRSA.hybrid_decrypt (CoreCryptoRSA.hybrid_encrypt p pk entropy) skWrong
      = Except.error PyErr.decryptionError ∧
    ∀ i b, i < (CoreCryptoRSA.hybrid_encrypt p pk entropy).gx1.length →
      b ≠ (CoreCryptoRSA.hybrid_encrypt p pk entropy).gx1.getD i 0 → b < 256 →
      CoreCryptoRSA.hybrid_decrypt
          (corruptPartA (CoreCryptoRSA.hybrid_encrypt p pk entropy) i b) skMatch
        = Except.error PyErr.decryptionError := by
  obtain ⟨msg, hgx1, hmsg⟩ :
      ∃ msg, (CoreCryptoRSA.hybrid_encrypt p pk entropy).gx1 = oaepEncrypt pk msg ∧
        ∀ x ∈ msg, x < 256 := by
    by_cases hsmall : p.length ≤ CryptoConstants.PK_ENC_LEN - CryptoConstants.PK_PAD_LEN
    · refine ⟨p, ?_, hp⟩
      unfold CoreCryptoRSA.hybrid_encrypt
      rw [if_pos hsmall]
      rfl
    · refine ⟨urandom entropy CryptoConstants.KEY_LEN
        ++ p.take (CryptoConstants.PK_ENC_LEN - CryptoConstants.PK_PAD_LEN
          - CryptoConstants.KEY_LEN), ?_, ?_⟩
      · unfold CoreCryptoRSA.hybrid_encrypt
        rw [if_neg hsmall]
        rfl
      · intro x hx
        rcases List.mem_append.mp hx with hk | hm1
        · exact urandom_lt entropy _ x hk
        · exact hp x (List.take_subset _ _ hm1)
  constructor
  · refine hybrid_decrypt_error_of_gx1 _ skWrong _ ?_
    rw [hgx1]
    exact oaepDecrypt_wrong_key skWrong pk msg hwrong
  · intro i b hi hb hblt
    rw [hgx1] at hi hb
    refine hybrid_decrypt_error_of_gx1 _ skMatch _ ?_
    have hset : (corruptPartA (CoreCryptoRSA.hybrid_encrypt p pk entropy) i b).gx1
        = (oaepEncrypt pk msg).set i b := by
      show (CoreCryptoRSA.hybrid_encrypt p pk entropy).gx1.set i b
        = (oaepEncrypt pk msg).set i b
      rw [hgx1]
    rw [hset]
    exact oaepDecrypt_set_error skMatch pk msg hmatch hmsg i b hi hb hblt

/-- C3: on the small path (payload within usable capacity) the record
has `part_a` equal to the OAEP ciphertext of the payload and
`symmetric_key`/`part_b` absent, but the `padding` field is not absent:
it holds the stringified public key, refuting the claim that all three
of `symmetric_key`, `padding`, `part_b` are absent. -/
theorem small_path_padding_present :
    (CoreCryptoRSA.hybrid_encrypt [65] ⟨7⟩ (fun i => i)).padding = some (strOfPk ⟨7⟩) ∧
    (CoreCryptoRSA.hybrid_encrypt [65] ⟨7⟩ (fun i => i)).symkey = none ∧
    (CoreCryptoRSA.hybrid_encrypt [65] ⟨7⟩ (fun i => i)).gx1 = oaepEncrypt ⟨7⟩ [65] ∧
    (CoreCryptoRSA.hybrid_encrypt [65] ⟨7⟩ (fun i => i)).gx2 = none := by
  refine ⟨rfl, rfl, rfl, rfl⟩

/-- Witness for C1: the round-trip theorem applied at the concrete
payload `[42]` and the matching keypair with id 3. -/
theorem hybrid_round_trip_witness :
    CoreCryptoRSA.hybrid_decrypt (CoreCryptoRSA.hybrid_encrypt [42] ⟨3⟩ (fun i => i)) ⟨3⟩
      = Except.ok [42] :=
  hybrid_round_trip [42] ⟨3⟩ ⟨3⟩ (fun i => i) rfl (by decide) (by decide)

/-- Witness for C2: path selection applied at the one-byte payload
`[1]`, whose record takes the small path. -/
theorem hybrid_path_selection_witness :
    (CoreCryptoRSA.hybrid_encrypt [1] ⟨2⟩ (fun i => i)).symkey.isSome = true
      ↔ usable_capacity < [1].length :=
  hybrid_path_selection [1] ⟨2⟩ (fun i => i) (by decide)

/-- Witness for C7: the hybrid-path characterization applied at the
87-byte payload `replicate 87 7`, which exceeds the usable capacity. -/
theorem hybrid_large_path_witness :
    CoreCryptoRSA.hybrid_encrypt (List.replicate 87 7) ⟨2⟩ (fun i => i) =
      ⟨some (List.replicate ((List.replicate 87 7).drop
          (usable_capacity - CryptoConstants.KEY_LEN)).length 0),
       some (urandom (fun i => i) CryptoConstants.KEY_LEN),
       oaepEncrypt ⟨2⟩ (urandom (fun i => i) CryptoConstants.KEY_LEN
         ++ (List.replicate 87 7).take (usable_capacity - CryptoConstants.KEY_LEN)),
       some (ctrXor (ctrKeystream (urandom (fun i => i) CryptoConstants.KEY_LEN)
           (List.replicate ((List.replicate 87 7).drop
             (usable_capacity - CryptoConstants.KEY_LEN)).length 0)) 0
         ((List.replicate 87 7).drop (usable_capacity - CryptoConstants.KEY_LEN)))⟩ ∧
    (urandom (fun i => i) CryptoConstants.KEY_LEN).length = CryptoConstants.KEY_LEN ∧
    (urandom (fun i => i) CryptoConstants.KEY_LEN
      ++ (List.replicate 87 7).take (usable_capacity - CryptoConstants.KEY_LEN)).length
        = usable_capacity ∧
    (List.replicate ((List.replicate 87 7).drop
        (usable_capacity - CryptoConstants.KEY_LEN)).length 0).length
      = ((List.replicate 87 7).drop (usable_capacity - CryptoConstants.KEY_LEN)).length :=
  hybrid_large_path (List.replicate 87 7) ⟨2⟩ (fun i => i) (by decide)

/-- Witness for C8: decryption failure applied at the payload `[9]`
encrypted for key 4, decrypted with the non-matching key 5 and, for the
corruption clause, with the matching key 4. -/
theorem decryption_failure_witness :
    CoreCryptoRSA.hybrid_decrypt (CoreCryptoRSA.hybrid_encrypt [9] ⟨4⟩ (fun i => i)) ⟨5⟩
      = Except.error PyErr.decryptionError ∧
    ∀ i b, i < (CoreCryptoRSA.hybrid_encrypt [9] ⟨4⟩ (fun i => i)).gx1.length →
      b ≠ (CoreCryptoRSA.hybrid_encrypt [9] ⟨4⟩ (fun i => i)).gx1.getD i 0 → b < 256 →
      CoreCryptoRSA.hybrid_decrypt
          (corruptPartA (CoreCryptoRSA.hybrid_encrypt [9] ⟨4⟩ (fun i => i)) i b) ⟨4⟩
        = Except.error PyErr.decryptionError :=
  decryption_failure [9] ⟨4⟩ ⟨5⟩ ⟨4⟩ (fun i => i) (by decide) (by decide) rfl
